import Mathlib

/-!
Verification of the shadow-mapping subsystem of a WebGL teaching lab.

The development shallowly embeds:
* the gl-matrix vector/matrix routines the scene calls (cross, normalize,
  scaleAndAdd, lookAt, perspective, ortho, matrix multiplication);
* the shadow transform builder of ShadowMappingScene.draw for spot,
  directional (cascaded) and point (cube) lights;
* the shadow sampling loops of the directional and point fragment shaders;
* the multi-light compositor's blending state machine, the shadow-map
  allocation performed in ShadowMappingScene.start, and the framebuffer
  completeness diagnostic of the shadow rasterization pass.

Matrices are stored column-major exactly as gl-matrix stores them
(field mI of Mat4 is gl-matrix element out[I]).
-/

namespace ShadowLab

/-- A 3-component vector, mirroring gl-matrix vec3. -/
@[ext]
structure Vec3 (α : Type) where
  x : α
  y : α
  z : α
  deriving DecidableEq, Repr

/-- A 4-component vector, mirroring gl-matrix vec4. -/
@[ext]
structure Vec4 (α : Type) where
  x : α
  y : α
  z : α
  w : α
  deriving DecidableEq, Repr

/-- A 4x4 matrix in gl-matrix column-major element order:
element mI is gl-matrix out[I], i.e. column (I / 4), row (I % 4). -/
@[ext]
structure Mat4 (α : Type) where
  m0 : α
  m1 : α
  m2 : α
  m3 : α
  m4 : α
  m5 : α
  m6 : α
  m7 : α
  m8 : α
  m9 : α
  m10 : α
  m11 : α
  m12 : α
  m13 : α
  m14 : α
  m15 : α
  deriving DecidableEq, Repr

variable {α : Type}

/-- gl-matrix vec3.cross. -/
def cross3 [Field α] (a b : Vec3 α) : Vec3 α :=
  ⟨a.y * b.z - a.z * b.y, a.z * b.x - a.x * b.z, a.x * b.y - a.y * b.x⟩

/-- gl-matrix vec3.add. -/
def vadd3 [Field α] (a b : Vec3 α) : Vec3 α :=
  ⟨a.x + b.x, a.y + b.y, a.z + b.z⟩

/-- gl-matrix vec3.subtract. -/
def vsub3 [Field α] (a b : Vec3 α) : Vec3 α :=
  ⟨a.x - b.x, a.y - b.y, a.z - b.z⟩

/-- Scaling a vector by a scalar. -/
def vscale3 [Field α] (s : α) (a : Vec3 α) : Vec3 α :=
  ⟨s * a.x, s * a.y, s * a.z⟩

/-- gl-matrix vec3.scaleAndAdd: a + b * scale. -/
def vscaleAndAdd [Field α] (a b : Vec3 α) (scale : α) : Vec3 α :=
  ⟨a.x + b.x * scale, a.y + b.y * scale, a.z + b.z * scale⟩

/-- gl-matrix vec3.dot. -/
def dot3 [Field α] (a b : Vec3 α) : α :=
  a.x * b.x + a.y * b.y + a.z * b.z

/-- The scene's helper (07-ShadowMapping.tsx line 104): given a vector, return
an arbitrary perpendicular vector.  The code crosses with (0,0,1) when the
second and third components are both zero and with (1,0,0) otherwise. -/
def perpendicular [Field α] [DecidableEq α] (directon : Vec3 α) : Vec3 α :=
  if directon.y = 0 ∧ directon.z = 0 then cross3 directon ⟨0, 0, 1⟩
  else cross3 directon ⟨1, 0, 0⟩

/-- Modelled from the spec: the up-reference rule as the specification words it,
"the cross product of direction with (0,0,1) unless direction is already
axis-aligned with Y/Z, in which case (1,0,0) is used". -/
def perpendicularSpec [Field α] [DecidableEq α] (d : Vec3 α) : Vec3 α :=
  if (d.x = 0 ∧ d.z = 0) ∨ (d.x = 0 ∧ d.y = 0) then cross3 d ⟨1, 0, 0⟩
  else cross3 d ⟨0, 0, 1⟩

/-- gl-matrix vec4.transformMat4 applied as M * v (column-major M). -/
def transformMat4 [Field α] (m : Mat4 α) (v : Vec4 α) : Vec4 α :=
  ⟨m.m0 * v.x + m.m4 * v.y + m.m8 * v.z + m.m12 * v.w,
   m.m1 * v.x + m.m5 * v.y + m.m9 * v.z + m.m13 * v.w,
   m.m2 * v.x + m.m6 * v.y + m.m10 * v.z + m.m14 * v.w,
   m.m3 * v.x + m.m7 * v.y + m.m11 * v.z + m.m15 * v.w⟩

/-- gl-matrix mat4.multiply: out = a * b on column vectors. -/
def mat4mul [Field α] (a b : Mat4 α) : Mat4 α :=
  ⟨b.m0 * a.m0 + b.m1 * a.m4 + b.m2 * a.m8 + b.m3 * a.m12,
   b.m0 * a.m1 + b.m1 * a.m5 + b.m2 * a.m9 + b.m3 * a.m13,
   b.m0 * a.m2 + b.m1 * a.m6 + b.m2 * a.m10 + b.m3 * a.m14,
   b.m0 * a.m3 + b.m1 * a.m7 + b.m2 * a.m11 + b.m3 * a.m15,
   b.m4 * a.m0 + b.m5 * a.m4 + b.m6 * a.m8 + b.m7 * a.m12,
   b.m4 * a.m1 + b.m5 * a.m5 + b.m6 * a.m9 + b.m7 * a.m13,
   b.m4 * a.m2 + b.m5 * a.m6 + b.m6 * a.m10 + b.m7 * a.m14,
   b.m4 * a.m3 + b.m5 * a.m7 + b.m6 * a.m11 + b.m7 * a.m15,
   b.m8 * a.m0 + b.m9 * a.m4 + b.m10 * a.m8 + b.m11 * a.m12,
   b.m8 * a.m1 + b.m9 * a.m5 + b.m10 * a.m9 + b.m11 * a.m13,
   b.m8 * a.m2 + b.m9 * a.m6 + b.m10 * a.m10 + b.m11 * a.m14,
   b.m8 * a.m3 + b.m9 * a.m7 + b.m10 * a.m11 + b.m11 * a.m15,
   b.m12 * a.m0 + b.m13 * a.m4 + b.m14 * a.m8 + b.m15 * a.m12,
   b.m12 * a.m1 + b.m13 * a.m5 + b.m14 * a.m9 + b.m15 * a.m13,
   b.m12 * a.m2 + b.m13 * a.m6 + b.m14 * a.m10 + b.m15 * a.m14,
   b.m12 * a.m3 + b.m13 * a.m7 + b.m14 * a.m11 + b.m15 * a.m15⟩

/-- gl-matrix mat4.identity. -/
def identityM [Field α] : Mat4 α :=
  ⟨1, 0, 0, 0, 0, 1, 0, 0, 0, 0, 1, 0, 0, 0, 0, 1⟩

/-- gl-matrix mat4.ortho (orthoNO, the WebGL default). -/
def orthoM [Field α] (left right bottom top near far : α) : Mat4 α :=
  let lr := 1 / (left - right)
  let bt := 1 / (bottom - top)
  let nf := 1 / (near - far)
  ⟨-2 * lr, 0, 0, 0,
   0, -2 * bt, 0, 0,
   0, 0, 2 * nf, 0,
   (left + right) * lr, (top + bottom) * bt, (far + near) * nf, 1⟩

/-- gl-matrix EPSILON (0.000001), used by mat4.lookAt's degeneracy guard. -/
noncomputable def glEPSILON : ℝ := 1 / 1000000

/-- gl-matrix vec3.normalize: multiply by 1/sqrt of the squared length when
that length is positive, otherwise leave the (necessarily zero) vector as is. -/
noncomputable def vnormalize (v : Vec3 ℝ) : Vec3 ℝ :=
  let len := v.x * v.x + v.y * v.y + v.z * v.z
  let s := if 0 < len then 1 / Real.sqrt len else len
  ⟨v.x * s, v.y * s, v.z * s⟩

/-- gl-matrix vec3.distance (Math.hypot of the componentwise differences). -/
noncomputable def vdistance (a b : Vec3 ℝ) : ℝ :=
  Real.sqrt ((b.x - a.x) * (b.x - a.x) + (b.y - a.y) * (b.y - a.y) +
    (b.z - a.z) * (b.z - a.z))

/-- Normalize, or return the zero vector when the length is zero: the guard
gl-matrix mat4.lookAt applies to its second and third derived axes. -/
noncomputable def normalizeOrZero (v : Vec3 ℝ) : Vec3 ℝ :=
  let len := Real.sqrt (v.x * v.x + v.y * v.y + v.z * v.z)
  if len = 0 then ⟨0, 0, 0⟩ else ⟨v.x / len, v.y / len, v.z / len⟩

/-- gl-matrix mat4.perspective (perspectiveNO) with a finite far plane. -/
noncomputable def perspectiveM (fovy aspect near far : ℝ) : Mat4 ℝ :=
  let f := 1 / Real.tan (fovy / 2)
  let nf := 1 / (near - far)
  ⟨f / aspect, 0, 0, 0,
   0, f, 0, 0,
   0, 0, (far + near) * nf, -1,
   0, 0, 2 * far * near * nf, 0⟩

/-- gl-matrix mat4.lookAt: identity when eye and center are within EPSILON
componentwise, otherwise the orthonormalized view matrix. -/
noncomputable def lookAtM (eye center up : Vec3 ℝ) : Mat4 ℝ :=
  if |eye.x - center.x| < glEPSILON ∧ |eye.y - center.y| < glEPSILON ∧
      |eye.z - center.z| < glEPSILON then
    identityM
  else
    let z := vnormalize (vsub3 eye center)
    let x := normalizeOrZero (cross3 up z)
    let y := normalizeOrZero (cross3 z x)
    ⟨x.x, y.x, z.x, 0,
     x.y, y.y, z.y, 0,
     x.z, y.z, z.z, 0,
     -(dot3 x eye), -(dot3 y eye), -(dot3 z eye), 1⟩

/-! ## The shadow transform builder (ShadowMappingScene.draw, lines 326-361) -/

/-- Spot-light shadow view-projection (line 328-330): a perspective projection
with vertical field of view 2 * outer_cone, aspect 1 and the light's
shadowNear/shadowFar, composed with a look-at from the light position toward
position + direction. -/
noncomputable def spotShadowVP (position direction : Vec3 ℝ)
    (outer_cone shadowNear shadowFar : ℝ) : Mat4 ℝ :=
  mat4mul (perspectiveM (2 * outer_cone) 1 shadowNear shadowFar)
    (lookAtM position (vadd3 position direction) (perpendicular direction))

/-- The directional light's stable eye point (line 343): camera position
offset along the normalized light direction by -shadowDistance/2. -/
noncomputable def directionalShadowEye (camPos direction : Vec3 ℝ)
    (shadowDistance : ℝ) : Vec3 ℝ :=
  vscaleAndAdd camPos (vnormalize direction) (-shadowDistance / 2)

/-- The shared directional view matrix V of line 343. -/
noncomputable def directionalSharedView (camPos direction : Vec3 ℝ)
    (shadowDistance : ℝ) : Mat4 ℝ :=
  lookAtM (directionalShadowEye camPos direction shadowDistance) camPos
    (perpendicular direction)

/-- The per-cascade view-projection matrices of lines 345-350: an orthographic
box of half-extent cascades[i] over depth [0, shadowDistance], times V. -/
noncomputable def directionalShadowVPs (camPos direction : Vec3 ℝ)
    (shadowDistance : ℝ) (cascades : List ℝ) : List (Mat4 ℝ) :=
  cascades.map fun size =>
    mat4mul (orthoM (-size) size (-size) size 0 shadowDistance)
      (directionalSharedView camPos direction shadowDistance)

/-- ShadowMappingScene.MAX_CASCADES (line 129). -/
def MAX_CASCADES : ℕ := 4

/-- ShadowMappingScene.PointShadowDirections (lines 132-139). -/
noncomputable def PointShadowDirections : List (Vec3 ℝ) :=
  [⟨-1, 0, 0⟩, ⟨0, -1, 0⟩, ⟨0, 0, -1⟩, ⟨1, 0, 0⟩, ⟨0, 1, 0⟩, ⟨0, 0, 1⟩]

/-- ShadowMappingScene.PointShadowUps (lines 141-148). -/
noncomputable def PointShadowUps : List (Vec3 ℝ) :=
  [⟨0, -1, 0⟩, ⟨0, 0, -1⟩, ⟨0, -1, 0⟩, ⟨0, -1, 0⟩, ⟨0, 0, -1⟩, ⟨0, -1, 0⟩]

/-- Point-light shadow view-projections (lines 351-360): one shared
90-degree perspective projection P, and per face i the view looking from the
light position along PointShadowDirections[i] with up PointShadowUps[i]. -/
noncomputable def pointShadowVPs (position : Vec3 ℝ)
    (shadowNear shadowFar : ℝ) : List (Mat4 ℝ) :=
  List.zipWith
    (fun d u =>
      mat4mul (perspectiveM (Real.pi / 2) 1 shadowNear shadowFar)
        (lookAtM position (vadd3 position d) u))
    PointShadowDirections PointShadowUps

/-- Modelled from the spec: the half-height the projection P assigns to a
given view depth, recovered from the perspective matrix as
dist / P[5] = dist * tan(fovy / 2); the point (0, halfHeight, -dist) maps to
the top edge of the frustum. -/
noncomputable def halfHeightAt (P : Mat4 ℝ) (dist : ℝ) : ℝ :=
  dist / P.m5

/-- Modelled from the spec: the vertical field of view encoded in a
perspective matrix, recovered as 2 * arctan(1 / P[5]). -/
noncomputable def perspectiveFovOf (P : Mat4 ℝ) : ℝ :=
  2 * Real.arctan (1 / P.m5)

/-! ## The shadow sampling contract (directional.frag and point.frag) -/

/-- Lines 82-84 of directional.frag (and 82-84 of point.frag): transform the
world point by a shadow view-projection, divide by w, and remap every
component from [-1,1] to [0,1]; the shader then samples with the xyz part. -/
def shadowCoordOf [Field α] (m : Mat4 α) (world : Vec3 α) : Vec3 α :=
  let c := transformMat4 m ⟨world.x, world.y, world.z, 1⟩
  ⟨(1 / 2) * (c.x / c.w) + 1 / 2,
   (1 / 2) * (c.y / c.w) + 1 / 2,
   (1 / 2) * (c.z / c.w) + 1 / 2⟩

/-- The indices visited by the cascade loop of directional.frag lines 79-88:
i = 0, 1, ... while i < min(active_cascades, MAX_CASCADES). -/
def cascadeLoopIndices (active : ℤ) : List ℕ :=
  List.range (min active (MAX_CASCADES : ℤ)).toNat

/-- The first index in the list whose cascade extent is at least dist:
the loop body's "if (distance <= cascades[i]) ... break". -/
def selectCascade [LinearOrderedField α] (dist : α) (cascades : ℕ → α) :
    List ℕ → Option ℕ
  | [] => none
  | i :: rest =>
    if dist ≤ cascades i then some i else selectCascade dist cascades rest

/-- The shadow factor computed by directional.frag lines 77-89, with the
hardware depth-comparison fetch left abstract as sample. -/
def directionalShadowFactor [LinearOrderedField α] (hasShadow : Bool)
    (active : ℤ) (cascades : ℕ → α) (shadowVPs : ℕ → Mat4 α)
    (sample : ℕ → Vec3 α → α) (dist : α) (world : Vec3 α) : α :=
  if hasShadow then
    match selectCascade dist cascades (cascadeLoopIndices active) with
    | some i => sample i (shadowCoordOf (shadowVPs i) world)
    | none => 1
  else 1

/-- The same factor with dist instantiated to the distance the shader
computes, distance(cam_position, v_world). -/
noncomputable def directionalShadowMain (hasShadow : Bool) (active : ℤ)
    (cascades : ℕ → ℝ) (shadowVPs : ℕ → Mat4 ℝ) (sample : ℕ → Vec3 ℝ → ℝ)
    (cam_position v_world : Vec3 ℝ) : ℝ :=
  directionalShadowFactor hasShadow active cascades shadowVPs sample
    (vdistance cam_position v_world) v_world

/-- The in-range test of point.frag line 85: every component of the remapped
shadow coordinate lies in [0,1]. -/
def inRange01 [LinearOrderedField α] (c : Vec3 α) : Prop :=
  0 ≤ c.x ∧ 0 ≤ c.y ∧ 0 ≤ c.z ∧ c.x ≤ 1 ∧ c.y ≤ 1 ∧ c.z ≤ 1

instance [LinearOrderedField α] (c : Vec3 α) : Decidable (inRange01 c) := by
  unfold inRange01
  infer_instance

/-- The shadow factor computed by point.frag lines 79-88: all six faces are
tested in order with no break, so a later in-range face overwrites an
earlier one. -/
def pointShadowFactor [LinearOrderedField α] (hasShadow : Bool)
    (shadowVPs : ℕ → Mat4 α) (sample : ℕ → Vec3 α → α) (world : Vec3 α) : α :=
  if hasShadow then
    (List.range 6).foldl
      (fun shadow i =>
        let c := shadowCoordOf (shadowVPs i) world
        if inRange01 c then sample i c else shadow)
      1
  else 1

/-! ## The multi-light compositor (ShadowMappingScene.draw, lines 323-324 and
407-419) -/

/-- WebGL blend equations relevant here. -/
inductive BlendEq
  | funcAdd
  | funcReverseSubtract
  deriving DecidableEq, Repr

/-- WebGL blend factors relevant here. -/
inductive BlendFactor
  | one
  | zero
  deriving DecidableEq, Repr

/-- WebGL depth comparison functions relevant here. -/
inductive DepthFunc
  | less
  | lequal
  deriving DecidableEq, Repr

/-- The slice of WebGL state the compositor reads and writes. -/
structure GLState where
  blendOn : Bool
  blendEq : BlendEq
  blendSrc : BlendFactor
  blendDst : BlendFactor
  depth : DepthFunc
  deriving DecidableEq, Repr

/-- The per-light fields the two draw loops branch on. -/
structure LightCfg where
  enabled : Bool
  hasShadow : Bool
  shadowCount : ℕ
  deriving DecidableEq, Repr

/-- A record of one shading pass: which light it renders and the GL state it
runs under. -/
structure ShadingPass where
  lightIdx : ℕ
  blendOn : Bool
  blendEq : BlendEq
  blendSrc : BlendFactor
  blendDst : BlendFactor
  depth : DepthFunc
  deriving DecidableEq, Repr

/-- Snapshot the current GL state into a pass record for light i. -/
def emitPass (i : ℕ) (s : GLState) : ShadingPass :=
  ⟨i, s.blendOn, s.blendEq, s.blendSrc, s.blendDst, s.depth⟩

/-- The shading loop of lines 409-419: skip disabled lights; the first enabled
light disables blending, every later one enables additive ONE/ONE blending. -/
def shadingPassesAux (s : GLState) (first : Bool) (i : ℕ) :
    List LightCfg → List ShadingPass
  | [] => []
  | l :: rest =>
    if l.enabled then
      if first then
        emitPass i { s with blendOn := false }
          :: shadingPassesAux { s with blendOn := false } false (i + 1) rest
      else
        emitPass i
            { s with blendOn := true, blendEq := BlendEq.funcAdd,
                     blendSrc := BlendFactor.one, blendDst := BlendFactor.one }
          :: shadingPassesAux
              { s with blendOn := true, blendEq := BlendEq.funcAdd,
                       blendSrc := BlendFactor.one,
                       blendDst := BlendFactor.one }
              false (i + 1) rest
    else
      shadingPassesAux s first (i + 1) rest

/-- The full shading phase, entered with first_light = true (line 407). -/
def shadingPasses (s : GLState) (lights : List LightCfg) : List ShadingPass :=
  shadingPassesAux s true 0 lights

/-- The shadow phase of lines 323-397: a light that is disabled or has no
shadow is skipped; otherwise one sub-pass per entry of its ShadowSet.
Each emitted pair is (light index, sub-pass index). -/
def shadowPassesAux (i : ℕ) : List LightCfg → List (ℕ × ℕ)
  | [] => []
  | l :: rest =>
    (if l.enabled && l.hasShadow then
       (List.range l.shadowCount).map (fun j => (i, j))
     else []) ++ shadowPassesAux (i + 1) rest

/-- All shadow sub-passes of one frame, in light-list order. -/
def shadowPasses (lights : List LightCfg) : List (ℕ × ℕ) :=
  shadowPassesAux 0 lights

/-! ## Shadow-map allocation (ShadowMappingScene.start, lines 274-285) -/

/-- Texture formats relevant here. -/
inductive TexFormat
  | rgba8
  | depthComponent32F
  deriving DecidableEq, Repr

/-- A created render texture: size and format. -/
structure STexture where
  width : ℕ
  height : ℕ
  format : TexFormat
  deriving DecidableEq, Repr

/-- TextureUtils.RenderTexture(gl, size, format). -/
def RenderTexture (size : ℕ × ℕ) (format : TexFormat) : STexture :=
  ⟨size.1, size.2, format⟩

/-- The discriminant of the Light union type. -/
inductive LType
  | ambient
  | directional
  | point
  | spot
  deriving DecidableEq, Repr

/-- The fields of a scene light that the allocation invariant concerns
(the flattened union of the four light interfaces). -/
structure SLight where
  ltype : LType
  enabled : Bool
  hasShadow : Bool
  cascades : List ℚ
  shadowMapResolution : ℕ
  shadowMaps : List STexture
  shadowVPCount : ℕ
  deriving DecidableEq, Repr

/-- The allocation loop of start() lines 274-285: one depth texture for a
spot light, one per cascade for a directional light, six for a point light,
each square with side shadowMapResolution and format DEPTH_COMPONENT32F. -/
def allocateShadowMaps (l : SLight) : SLight :=
  match l.ltype with
  | LType.spot =>
    { l with shadowMaps :=
        [RenderTexture (l.shadowMapResolution, l.shadowMapResolution)
          TexFormat.depthComponent32F] }
  | LType.directional =>
    { l with shadowMaps :=
        l.cascades.map (fun _ =>
          RenderTexture (l.shadowMapResolution, l.shadowMapResolution)
            TexFormat.depthComponent32F) }
  | LType.point =>
    { l with shadowMaps :=
        (List.range 6).map (fun _ =>
          RenderTexture (l.shadowMapResolution, l.shadowMapResolution)
            TexFormat.depthComponent32F) }
  | LType.ambient => l

/-- The scene's ambient light (line 120). -/
def ambientLight0 : SLight :=
  ⟨LType.ambient, true, false, [], 0, [], 0⟩

/-- The scene's directional light (line 121): cascades [2, 10, 100],
resolution 1024. -/
def directionalLight0 : SLight :=
  ⟨LType.directional, true, true, [2, 10, 100], 1024, [], 0⟩

/-- The scene's point light (line 122): resolution 256. -/
def pointLight0 : SLight :=
  ⟨LType.point, true, true, [], 256, [], 0⟩

/-- The scene's spot light (line 123): resolution 512. -/
def spotLight0 : SLight :=
  ⟨LType.spot, true, true, [], 512, [], 0⟩

/-- The four scene lights. -/
structure SceneLights where
  ambientL : SLight
  directionalL : SLight
  pointL : SLight
  spotL : SLight
  deriving DecidableEq, Repr

/-- The scene state right after start(): every shadow map allocated. -/
def startLights : SceneLights :=
  ⟨allocateShadowMaps ambientLight0, allocateShadowMaps directionalLight0,
   allocateShadowMaps pointLight0, allocateShadowMaps spotLight0⟩

/-- What the control panel may write between frames: the enabled and shadow
flags and the numeric value of each existing cascade (the UI maps over the
existing cascade entries, so the count never changes). -/
structure UIUpdate where
  enabled : Bool
  hasShadow : Bool
  cascadeValues : ℕ → ℚ

/-- Apply one UI update to one light. -/
def applyUI (u : UIUpdate) (l : SLight) : SLight :=
  { l with
    enabled := u.enabled,
    hasShadow := if l.ltype = LType.ambient then l.hasShadow else u.hasShadow,
    cascades := (List.range l.cascades.length).map u.cascadeValues }

/-- How many view-projection matrices draw() builds for a light of each
type (lines 328, 345, 356). -/
def builtVPCount (l : SLight) : ℕ :=
  match l.ltype with
  | LType.spot => 1
  | LType.directional => l.cascades.length
  | LType.point => 6
  | LType.ambient => 0

/-- The effect of one draw() call on one light: when enabled with shadows it
(re)writes the shadowVPs entries, and it never touches the shadow maps. -/
def drawStep (l : SLight) : SLight :=
  if l.enabled && l.hasShadow then
    { l with shadowVPCount := max l.shadowVPCount (builtVPCount l) }
  else l

/-- One UI update per scene light. -/
structure SceneUI where
  ambientU : UIUpdate
  directionalU : UIUpdate
  pointU : UIUpdate
  spotU : UIUpdate

/-- One frame: UI writes between frames, then draw(). -/
def frameStep (u : SceneUI) (s : SceneLights) : SceneLights :=
  ⟨drawStep (applyUI u.ambientU s.ambientL),
   drawStep (applyUI u.directionalU s.directionalL),
   drawStep (applyUI u.pointU s.pointL),
   drawStep (applyUI u.spotU s.spotL)⟩

/-- The scene state after n frames following start(). -/
def runFrames (us : ℕ → SceneUI) : ℕ → SceneLights
  | 0 => startLights
  | n + 1 => frameStep (us n) (runFrames us n)

/-- A square depth-only texture of the given side. -/
def isSquareDepthMap (res : ℕ) (t : STexture) : Prop :=
  t.width = res ∧ t.height = res ∧ t.format = TexFormat.depthComponent32F

instance (res : ℕ) (t : STexture) : Decidable (isSquareDepthMap res t) := by
  unfold isSquareDepthMap
  infer_instance

/-! ## The framebuffer completeness diagnostic (draw, lines 364-395) -/

/-- The commands a shadow sub-pass issues. -/
inductive RenderCmd
  | attachDepth
  | logIncomplete
  | setViewport (w h : ℕ)
  | clearDepth
  | setShadowVP
  | setPolygonOffset
  | setModelMatrix
  | drawMesh
  deriving DecidableEq, Repr

/-- Whether a command is the console.error diagnostic. -/
def isLogCmd : RenderCmd → Bool
  | RenderCmd.logIncomplete => true
  | _ => false

/-- The object loop of lines 390-394: set M then draw, for each object. -/
def objCmds : ℕ → List RenderCmd
  | 0 => []
  | n + 1 => objCmds n ++ [RenderCmd.setModelMatrix, RenderCmd.drawMesh]

/-- One shadow sub-pass (lines 364-394): attach the depth texture, log if the
framebuffer is incomplete, then unconditionally set the viewport, clear
depth, upload the VP, set the polygon offset and draw every object. -/
def shadowSubPassCmds (fbComplete : Bool) (resolution objCount : ℕ) :
    List RenderCmd :=
  [RenderCmd.attachDepth] ++
    (if fbComplete then [] else [RenderCmd.logIncomplete]) ++
    [RenderCmd.setViewport resolution resolution, RenderCmd.clearDepth,
     RenderCmd.setShadowVP, RenderCmd.setPolygonOffset] ++
    objCmds objCount

/-- A sequence of shadow sub-passes, one per framebuffer status. -/
def framePassCmds (statuses : List Bool) (resolution objCount : ℕ) :
    List RenderCmd :=
  (statuses.map fun st => shadowSubPassCmds st resolution objCount).flatten

/-! ## Claim theorems -/

/-- C2: for every directional light the shared shadow view matrix looks from
eye = cameraPosition - normalize(direction) * (shadowDistance/2) toward
cameraPosition, the view-projection of cascade i is the orthographic
projection [-size,size]x[-size,size]x[0,shadowDistance] with
size = cascades[i] composed with that shared view, and with the camera at
the origin, direction (0,-1,0) and shadowDistance 800 the eye is exactly
(0, 400, 0). -/
theorem directional_shadow_view_matrices (camPos direction : Vec3 ℝ)
    (shadowDistance : ℝ) (cascades : List ℝ) :
    directionalShadowEye camPos direction shadowDistance
      = vsub3 camPos (vscale3 (shadowDistance / 2) (vnormalize direction))
    ∧ directionalShadowVPs camPos direction shadowDistance cascades
      = cascades.map (fun size =>
          mat4mul (orthoM (-size) size (-size) size 0 shadowDistance)
            (lookAtM
              (vsub3 camPos (vscale3 (shadowDistance / 2) (vnormalize direction)))
              camPos (perpendicular direction)))
    ∧ directionalShadowEye ⟨0, 0, 0⟩ ⟨0, -1, 0⟩ 800 = ⟨0, 400, 0⟩ := by
  have hEye : ∀ (c d : Vec3 ℝ) (sd : ℝ),
      directionalShadowEye c d sd
        = vsub3 c (vscale3 (sd / 2) (vnormalize d)) := by
    intro c d sd
    simp only [directionalShadowEye, vscaleAndAdd, vsub3, vscale3]
    ext <;> ring
  have hnorm : vnormalize ⟨0, -1, 0⟩ = (⟨0, -1, 0⟩ : Vec3 ℝ) := by
    simp only [vnormalize]
    norm_num [Real.sqrt_one]
  refine ⟨hEye camPos direction shadowDistance, ?_, ?_⟩
  · simp only [directionalShadowVPs, directionalSharedView, hEye]
  · rw [hEye, hnorm]
    simp only [vsub3, vscale3]
    ext <;> norm_num

/-- C3 (amended): the spot shadow view-projection is the perspective
projection with vertical field of view 2 * outer_cone, aspect 1 and
near/far = shadowNear/shadowFar composed with the look-at from position
toward position + direction, and the projection's half-height at a fixed
distance is dist * tan(outer_cone) - proportional to tan(outer_cone), not
to outer_cone itself. -/
theorem spot_shadow_projection (position direction : Vec3 ℝ)
    (outer_cone shadowNear shadowFar dist : ℝ) :
    spotShadowVP position direction outer_cone shadowNear shadowFar
      = mat4mul (perspectiveM (2 * outer_cone) 1 shadowNear shadowFar)
          (lookAtM position (vadd3 position direction)
            (perpendicular direction))
    ∧ halfHeightAt (perspectiveM (2 * outer_cone) 1 shadowNear shadowFar) dist
      = dist * Real.tan outer_cone := by
  constructor
  · rfl
  · have h5 : (perspectiveM (2 * outer_cone) 1 shadowNear shadowFar).m5
        = 1 / Real.tan (2 * outer_cone / 2) := rfl
    simp only [halfHeightAt, h5]
    rw [show 2 * outer_cone / 2 = outer_cone from by ring, one_div,
      div_inv_eq_mul]

/-- C3 counterexample: doubling the outer cone from pi/6 to pi/3 does not
double the projection's half-height at distance 1 (it is tan(pi/3) = sqrt 3,
not 2 * tan(pi/6) = 2 / sqrt 3), so the half-height does not change
proportionally to outer_cone. -/
theorem spot_half_height_counterexample :
    ¬ (halfHeightAt (perspectiveM (2 * (Real.pi / 3)) 1 1 100) 1
        = 2 * halfHeightAt (perspectiveM (2 * (Real.pi / 6)) 1 1 100) 1) := by
  have h3 : halfHeightAt (perspectiveM (2 * (Real.pi / 3)) 1 1 100) 1
      = Real.sqrt 3 := by
    have h5 : (perspectiveM (2 * (Real.pi / 3)) 1 1 100).m5
        = 1 / Real.tan (2 * (Real.pi / 3) / 2) := rfl
    simp only [halfHeightAt, h5]
    rw [show 2 * (Real.pi / 3) / 2 = Real.pi / 3 from by ring,
      Real.tan_pi_div_three, one_div_one_div]
  have h6 : halfHeightAt (perspectiveM (2 * (Real.pi / 6)) 1 1 100) 1
      = 1 / Real.sqrt 3 := by
    have h5 : (perspectiveM (2 * (Real.pi / 6)) 1 1 100).m5
        = 1 / Real.tan (2 * (Real.pi / 6) / 2) := rfl
    simp only [halfHeightAt, h5]
    rw [show 2 * (Real.pi / 6) / 2 = Real.pi / 6 from by ring,
      Real.tan_pi_div_six, one_div_one_div]
  rw [h3, h6]
  intro hEq
  have hpos : (0 : ℝ) < Real.sqrt 3 := Real.sqrt_pos.mpr (by norm_num)
  have hne : Real.sqrt 3 ≠ 0 := ne_of_gt hpos
  have hsq : Real.sqrt 3 * Real.sqrt 3 = 3 := Real.mul_self_sqrt (by norm_num)
  have hmul := congrArg (fun t => t * Real.sqrt 3) hEq
  simp only at hmul
  rw [hsq] at hmul
  have h2 : 2 * (1 / Real.sqrt 3) * Real.sqrt 3 = 2 := by
    field_simp
  rw [h2] at hmul
  norm_num at hmul

/-- C4 (amended): the up-reference helper crosses the direction with (1,0,0)
by default and with (0,0,1) exactly when the direction's y and z components
are both zero (direction axis-aligned with X); for every non-zero direction
the result is non-zero and perpendicular to the direction. -/
theorem perpendicular_up_reference (d : Vec3 ℝ) :
    (d.y = 0 ∧ d.z = 0 → perpendicular d = cross3 d ⟨0, 0, 1⟩)
    ∧ (¬(d.y = 0 ∧ d.z = 0) → perpendicular d = cross3 d ⟨1, 0, 0⟩)
    ∧ dot3 d (perpendicular d) = 0
    ∧ (d ≠ ⟨0, 0, 0⟩ → perpendicular d ≠ ⟨0, 0, 0⟩) := by
  refine ⟨fun h => ?_, fun h => ?_, ?_, fun hd => ?_⟩
  · rw [perpendicular, if_pos h]
  · rw [perpendicular, if_neg h]
  · by_cases h : d.y = 0 ∧ d.z = 0
    · rw [perpendicular, if_pos h]
      simp only [cross3, dot3]
      ring
    · rw [perpendicular, if_neg h]
      simp only [cross3, dot3]
      ring
  · by_cases h : d.y = 0 ∧ d.z = 0
    · obtain ⟨hy, hz⟩ := h
      have hx : d.x ≠ 0 := by
        intro hx
        exact hd (by ext <;> simp [hx, hy, hz])
      intro hEq
      rw [perpendicular, if_pos (⟨hy, hz⟩ : d.y = 0 ∧ d.z = 0)] at hEq
      have hcy := congrArg Vec3.y hEq
      simp [cross3] at hcy
      exact hx hcy
    · intro hEq
      rw [perpendicular, if_neg h] at hEq
      have hcy := congrArg Vec3.y hEq
      have hcz := congrArg Vec3.z hEq
      simp [cross3] at hcy hcz
      exact h ⟨hcz, hcy⟩

/-- C4 counterexample: for the direction (1,1,0), which is not axis-aligned
with Y or Z, the code crosses with (1,0,0) giving (0,0,-1), while the
claimed rule crosses with (0,0,1) giving (1,-1,0). -/
theorem perpendicular_up_rule_counterexample :
    perpendicular (⟨1, 1, 0⟩ : Vec3 ℝ) ≠ perpendicularSpec ⟨1, 1, 0⟩ := by
  have h1 : perpendicular (⟨1, 1, 0⟩ : Vec3 ℝ) = ⟨0, 0, -1⟩ := by
    rw [perpendicular, if_neg (by norm_num)]
    simp [cross3]
  have h2 : perpendicularSpec (⟨1, 1, 0⟩ : Vec3 ℝ) = ⟨1, -1, 0⟩ := by
    rw [perpendicularSpec, if_neg (by norm_num)]
    simp [cross3]
  rw [h1, h2]
  intro hEq
  have := congrArg Vec3.x hEq
  norm_num at this

/-- C4 witness: the direction (1,1,0) is non-zero and the helper returns a
non-zero vector for it. -/
theorem perpendicular_up_reference_witness :
    (⟨1, 1, 0⟩ : Vec3 ℝ) ≠ ⟨0, 0, 0⟩
    ∧ perpendicular (⟨1, 1, 0⟩ : Vec3 ℝ) ≠ ⟨0, 0, 0⟩ := by
  have hne : (⟨1, 1, 0⟩ : Vec3 ℝ) ≠ ⟨0, 0, 0⟩ := by
    intro hEq
    have := congrArg Vec3.x hEq
    norm_num at this
  exact ⟨hne, (perpendicular_up_reference ⟨1, 1, 0⟩).2.2.2 hne⟩

/-- C5: a point light builds exactly six view-projection matrices, each the
pi/2 field-of-view, aspect-1 perspective projection composed with a look-at
along the fixed axis order (-X,-Y,-Z,+X,+Y,+Z) paired with the fixed up
table; face 0 uses up (0,-1,0), and the projection's encoded vertical field
of view is exactly pi/2. -/
theorem point_shadow_transforms (position : Vec3 ℝ)
    (shadowNear shadowFar : ℝ) :
    pointShadowVPs position shadowNear shadowFar
      = [mat4mul (perspectiveM (Real.pi / 2) 1 shadowNear shadowFar)
           (lookAtM position (vadd3 position ⟨-1, 0, 0⟩) ⟨0, -1, 0⟩),
         mat4mul (perspectiveM (Real.pi / 2) 1 shadowNear shadowFar)
           (lookAtM position (vadd3 position ⟨0, -1, 0⟩) ⟨0, 0, -1⟩),
         mat4mul (perspectiveM (Real.pi / 2) 1 shadowNear shadowFar)
           (lookAtM position (vadd3 position ⟨0, 0, -1⟩) ⟨0, -1, 0⟩),
         mat4mul (perspectiveM (Real.pi / 2) 1 shadowNear shadowFar)
           (lookAtM position (vadd3 position ⟨1, 0, 0⟩) ⟨0, -1, 0⟩),
         mat4mul (perspectiveM (Real.pi / 2) 1 shadowNear shadowFar)
           (lookAtM position (vadd3 position ⟨0, 1, 0⟩) ⟨0, 0, -1⟩),
         mat4mul (perspectiveM (Real.pi / 2) 1 shadowNear shadowFar)
           (lookAtM position (vadd3 position ⟨0, 0, 1⟩) ⟨0, -1, 0⟩)]
    ∧ (pointShadowVPs position shadowNear shadowFar).length = 6
    ∧ PointShadowUps[0]? = some ⟨0, -1, 0⟩
    ∧ perspectiveFovOf (perspectiveM (Real.pi / 2) 1 shadowNear shadowFar)
        = Real.pi / 2 := by
  refine ⟨rfl, rfl, rfl, ?_⟩
  have h5 : (perspectiveM (Real.pi / 2) 1 shadowNear shadowFar).m5
      = 1 / Real.tan (Real.pi / 2 / 2) := rfl
  simp only [perspectiveFovOf, h5]
  rw [show Real.pi / 2 / 2 = Real.pi / 4 from by ring, Real.tan_pi_div_four,
    one_div_one_div, Real.arctan_one]
  ring

lemma selectCascade_append [LinearOrderedField α] (dist : α) (cas : ℕ → α)
    (l1 l2 : List ℕ) :
    selectCascade dist cas (l1 ++ l2)
      = match selectCascade dist cas l1 with
        | some i => some i
        | none => selectCascade dist cas l2 := by
  induction l1 with
  | nil => simp [selectCascade]
  | cons a t ih =>
    by_cases h : dist ≤ cas a
    · simp [selectCascade, h]
    · simp [selectCascade, h, ih]

lemma selectCascade_eq_none [LinearOrderedField α] (dist : α) (cas : ℕ → α)
    (l : List ℕ) (h : ∀ i ∈ l, ¬ dist ≤ cas i) :
    selectCascade dist cas l = none := by
  induction l with
  | nil => rfl
  | cons a t ih =>
    rw [selectCascade, if_neg (h a (by simp))]
    exact ih fun i hi => h i (by simp [hi])

lemma selectCascade_range [LinearOrderedField α] (dist : α) (cas : ℕ → α)
    (N i : ℕ) (hiN : i < N) (hle : dist ≤ cas i)
    (hmin : ∀ j, j < i → ¬ dist ≤ cas j) :
    selectCascade dist cas (List.range N) = some i := by
  induction N with
  | zero => omega
  | succ N ih =>
    rw [List.range_succ, selectCascade_append]
    rcases Nat.lt_succ_iff_lt_or_eq.mp hiN with hlt | heq
    · rw [ih hlt]
    · subst heq
      rw [selectCascade_eq_none dist cas (List.range i)
        fun j hj => hmin j (List.mem_range.mp hj)]
      simp [selectCascade, hle]

/-- C1: for a directional light with shadows, the fragment shader selects the
cascade with the smallest looped index whose extent is at least the distance
from the camera position to the shaded point, and returns the
depth-comparison sample of that cascade at the perspective-divided,
[0,1]-remapped coordinate; it returns 1 when the distance exceeds every
looped cascade extent and 1 when the light has no shadow, never reading out
of the loop range. -/
theorem directional_shadow_sampling_contract (active : ℤ)
    (cascades : ℕ → ℝ) (shadowVPs : ℕ → Mat4 ℝ) (sample : ℕ → Vec3 ℝ → ℝ)
    (cam_position v_world : Vec3 ℝ) :
    directionalShadowMain false active cascades shadowVPs sample
      cam_position v_world = 1
    ∧ (∀ i, i ∈ cascadeLoopIndices active →
        vdistance cam_position v_world ≤ cascades i →
        (∀ j, j < i → ¬ vdistance cam_position v_world ≤ cascades j) →
        directionalShadowMain true active cascades shadowVPs sample
          cam_position v_world
          = sample i (shadowCoordOf (shadowVPs i) v_world))
    ∧ ((∀ i, i ∈ cascadeLoopIndices active →
          ¬ vdistance cam_position v_world ≤ cascades i) →
        directionalShadowMain true active cascades shadowVPs sample
          cam_position v_world = 1) := by
  refine ⟨rfl, fun i hi hle hmin => ?_, fun hnone => ?_⟩
  · have hiN : i < (min active (MAX_CASCADES : ℤ)).toNat := by
      simpa [cascadeLoopIndices, List.mem_range] using hi
    have hsel := selectCascade_range (vdistance cam_position v_world) cascades
      ((min active (MAX_CASCADES : ℤ)).toNat) i hiN hle hmin
    simp only [directionalShadowMain, directionalShadowFactor,
      cascadeLoopIndices, hsel]
    rw [if_pos trivial]
  · have hsel := selectCascade_eq_none (vdistance cam_position v_world)
      cascades (cascadeLoopIndices active) hnone
    simp only [directionalShadowMain, directionalShadowFactor, hsel]
    rw [if_pos trivial]

/-- C1 witness: with the camera and the point both at the origin, three
cascades of extent 2 and identity shadow matrices, cascade 0 is selected
and the shader returns its sample. -/
theorem directional_shadow_sampling_contract_witness :
    vdistance (⟨0, 0, 0⟩ : Vec3 ℝ) ⟨0, 0, 0⟩ ≤ (2 : ℝ)
    ∧ directionalShadowMain true 3 (fun _ => (2 : ℝ)) (fun _ => identityM)
        (fun _ _ => (7 : ℝ)) ⟨0, 0, 0⟩ ⟨0, 0, 0⟩ = 7 := by
  have hdist : vdistance (⟨0, 0, 0⟩ : Vec3 ℝ) ⟨0, 0, 0⟩ = 0 := by
    simp [vdistance]
  have hle : vdistance (⟨0, 0, 0⟩ : Vec3 ℝ) ⟨0, 0, 0⟩ ≤ (2 : ℝ) := by
    rw [hdist]
    norm_num
  refine ⟨hle, ?_⟩
  have h := (directional_shadow_sampling_contract 3 (fun _ => (2 : ℝ))
    (fun _ => identityM) (fun _ _ => (7 : ℝ)) ⟨0, 0, 0⟩ ⟨0, 0, 0⟩).2.1 0
    (by decide) hle (by omega)
  simpa using h

/-- C6: for a point light with shadows all six faces are tested in order; a
face is in range iff the perspective-divided, [0,1]-remapped coordinate lies
in [0,1] on all three axes; the result is the sample of the last in-range
face, and 1 when no face is in range or the light has no shadow. -/
theorem point_shadow_sampling_contract (shadowVPs : ℕ → Mat4 ℝ)
    (sample : ℕ → Vec3 ℝ → ℝ) (world : Vec3 ℝ) :
    pointShadowFactor false shadowVPs sample world = 1
    ∧ (∀ i, i < 6 → inRange01 (shadowCoordOf (shadowVPs i) world) →
        (∀ j, i < j → j < 6 →
          ¬ inRange01 (shadowCoordOf (shadowVPs j) world)) →
        pointShadowFactor true shadowVPs sample world
          = sample i (shadowCoordOf (shadowVPs i) world))
    ∧ ((∀ j, j < 6 → ¬ inRange01 (shadowCoordOf (shadowVPs j) world)) →
        pointShadowFactor true shadowVPs sample world = 1)
    ∧ (∀ c : Vec3 ℝ, inRange01 c ↔
        (0 ≤ c.x ∧ 0 ≤ c.y ∧ 0 ≤ c.z ∧ c.x ≤ 1 ∧ c.y ≤ 1 ∧ c.z ≤ 1)) := by
  refine ⟨rfl, fun i hi6 hin hlast => ?_, fun hnone => ?_, fun c => Iff.rfl⟩
  · have hrange : List.range 6 = [0, 1, 2, 3, 4, 5] := rfl
    simp only [pointShadowFactor, hrange, List.foldl]
    rw [if_pos trivial]
    interval_cases i
    · rw [if_neg (hlast 5 (by omega) (by omega)),
        if_neg (hlast 4 (by omega) (by omega)),
        if_neg (hlast 3 (by omega) (by omega)),
        if_neg (hlast 2 (by omega) (by omega)),
        if_neg (hlast 1 (by omega) (by omega)), if_pos hin]
    · rw [if_neg (hlast 5 (by omega) (by omega)),
        if_neg (hlast 4 (by omega) (by omega)),
        if_neg (hlast 3 (by omega) (by omega)),
        if_neg (hlast 2 (by omega) (by omega)), if_pos hin]
    · rw [if_neg (hlast 5 (by omega) (by omega)),
        if_neg (hlast 4 (by omega) (by omega)),
        if_neg (hlast 3 (by omega) (by omega)), if_pos hin]
    · rw [if_neg (hlast 5 (by omega) (by omega)),
        if_neg (hlast 4 (by omega) (by omega)), if_pos hin]
    · rw [if_neg (hlast 5 (by omega) (by omega)), if_pos hin]
    · rw [if_pos hin]
  · have hrange : List.range 6 = [0, 1, 2, 3, 4, 5] := rfl
    simp only [pointShadowFactor, hrange, List.foldl]
    rw [if_pos trivial, if_neg (hnone 5 (by omega)), if_neg (hnone 4 (by omega)),
      if_neg (hnone 3 (by omega)), if_neg (hnone 2 (by omega)),
      if_neg (hnone 1 (by omega)), if_neg (hnone 0 (by omega))]

/-- C6 witness: with identity matrices the origin remaps to (1/2,1/2,1/2),
every face is in range, and the sample of face 5 (the last) wins. -/
theorem point_shadow_sampling_contract_witness :
    inRange01 (shadowCoordOf (identityM : Mat4 ℝ) ⟨0, 0, 0⟩)
    ∧ pointShadowFactor true (fun _ => identityM)
        (fun i _ => (i : ℝ)) ⟨0, 0, 0⟩ = 5 := by
  have hcoord : shadowCoordOf (identityM : Mat4 ℝ) ⟨0, 0, 0⟩
      = ⟨1 / 2, 1 / 2, 1 / 2⟩ := by
    simp only [shadowCoordOf, transformMat4, identityM]
    ext <;> norm_num
  have hin : inRange01 (shadowCoordOf (identityM : Mat4 ℝ) ⟨0, 0, 0⟩) := by
    rw [hcoord]
    exact ⟨by norm_num, by norm_num, by norm_num, by norm_num, by norm_num,
      by norm_num⟩
  refine ⟨hin, ?_⟩
  have h := (point_shadow_sampling_contract (fun _ => identityM)
    (fun i _ => (i : ℝ)) ⟨0, 0, 0⟩).2.1 5 (by omega) hin
    (fun j hj hj6 => absurd (by omega : j < 6) (by omega))
  simpa using h

/-- C10: for every integer value of the active_cascades uniform the cascade
loop visits at most min(active_cascades, MAX_CASCADES) indices, never more
than 4, and every visited index is below MAX_CASCADES, so all array
accesses inside the loop are in bounds. -/
theorem cascade_loop_within_bounds (active : ℤ) :
    (cascadeLoopIndices active).length
      = (min active (MAX_CASCADES : ℤ)).toNat
    ∧ (cascadeLoopIndices active).length ≤ MAX_CASCADES
    ∧ ∀ i ∈ cascadeLoopIndices active, i < MAX_CASCADES := by
  have hlen : (cascadeLoopIndices active).length
      = (min active (MAX_CASCADES : ℤ)).toNat := by
    simp [cascadeLoopIndices]
  have hb : min active ((MAX_CASCADES : ℕ) : ℤ) ≤ ((MAX_CASCADES : ℕ) : ℤ) :=
    min_le_right _ _
  refine ⟨hlen, ?_, fun i hi => ?_⟩
  · rw [hlen]
    omega
  · have hi2 : i < (min active (MAX_CASCADES : ℤ)).toNat := by
      simpa [cascadeLoopIndices, List.mem_range] using hi
    omega

/-- C10 witness: an out-of-range uniform value of 100 still yields at most
MAX_CASCADES iterations, and index 0 of a normal loop is in bounds. -/
theorem cascade_loop_within_bounds_witness :
    (cascadeLoopIndices 100).length ≤ MAX_CASCADES ∧ 0 < MAX_CASCADES :=
  ⟨(cascade_loop_within_bounds 100).2.1,
   (cascade_loop_within_bounds 3).2.2 0 (by decide)⟩

lemma shadingPassesAux_length (s : GLState) (first : Bool) (i : ℕ)
    (ls : List LightCfg) :
    (shadingPassesAux s first i ls).length
      = (ls.filter (fun l => l.enabled)).length := by
  induction ls generalizing s first i with
  | nil => rfl
  | cons l rest ih =>
    cases hE : l.enabled with
    | false => simp [shadingPassesAux, hE, List.filter, ih]
    | true => cases first <;> simp [shadingPassesAux, hE, List.filter, ih]

lemma shadingPassesAux_mem (s : GLState) (first : Bool) (i : ℕ)
    (ls : List LightCfg) :
    ∀ p ∈ shadingPassesAux s first i ls,
      p.depth = s.depth
      ∧ ∃ k l, ls[k]? = some l ∧ l.enabled = true ∧ p.lightIdx = i + k := by
  induction ls generalizing s first i with
  | nil =>
    intro p hp
    simp [shadingPassesAux] at hp
  | cons l rest ih =>
    intro p hp
    cases hE : l.enabled with
    | false =>
      rw [shadingPassesAux, if_neg (by simp [hE])] at hp
      obtain ⟨hd, k, l', hk, hen, hidx⟩ := ih s first (i + 1) p hp
      refine ⟨hd, k + 1, l', by simpa using hk, hen, by omega⟩
    | true =>
      rw [shadingPassesAux, if_pos (by simp [hE] : l.enabled = true)] at hp
      cases first with
      | true =>
        rcases List.mem_cons.mp hp with hph | hpt
        · subst hph
          exact ⟨rfl, 0, l, by simp, hE, by simp [emitPass]⟩
        · obtain ⟨hd, k, l', hk, hen, hidx⟩ := ih _ false (i + 1) p hpt
          exact ⟨hd, k + 1, l', by simpa using hk, hen, by omega⟩
      | false =>
        rcases List.mem_cons.mp hp with hph | hpt
        · subst hph
          exact ⟨rfl, 0, l, by simp, hE, by simp [emitPass]⟩
        · obtain ⟨hd, k, l', hk, hen, hidx⟩ := ih _ false (i + 1) p hpt
          exact ⟨hd, k + 1, l', by simpa using hk, hen, by omega⟩

lemma shadingPassesAux_false_mem (s : GLState) (i : ℕ) (ls : List LightCfg) :
    ∀ p ∈ shadingPassesAux s false i ls,
      p.blendOn = true ∧ p.blendEq = BlendEq.funcAdd
      ∧ p.blendSrc = BlendFactor.one ∧ p.blendDst = BlendFactor.one := by
  induction ls generalizing s i with
  | nil =>
    intro p hp
    simp [shadingPassesAux] at hp
  | cons l rest ih =>
    intro p hp
    cases hE : l.enabled with
    | false =>
      rw [shadingPassesAux, if_neg (by simp [hE])] at hp
      exact ih s (i + 1) p hp
    | true =>
      rw [shadingPassesAux, if_pos (by simp [hE] : l.enabled = true),
        if_neg (by simp : ¬(false = true))] at hp
      rcases List.mem_cons.mp hp with hph | hpt
      · subst hph
        exact ⟨rfl, rfl, rfl, rfl⟩
      · exact ih _ (i + 1) p hpt

lemma shadingPassesAux_true_get (s : GLState) (i : ℕ) (ls : List LightCfg) :
    ∀ k p, (shadingPassesAux s true i ls)[k]? = some p →
      p.depth = s.depth
      ∧ (k = 0 → p.blendOn = false)
      ∧ (0 < k → p.blendOn = true ∧ p.blendEq = BlendEq.funcAdd
          ∧ p.blendSrc = BlendFactor.one ∧ p.blendDst = BlendFactor.one) := by
  induction ls generalizing s i with
  | nil =>
    intro k p h
    simp [shadingPassesAux] at h
  | cons l rest ih =>
    intro k p h
    cases hE : l.enabled with
    | false =>
      rw [shadingPassesAux, if_neg (by simp [hE])] at h
      exact ih s (i + 1) k p h
    | true =>
      rw [shadingPassesAux, if_pos (by simp [hE] : l.enabled = true),
        if_pos rfl] at h
      cases k with
      | zero =>
        rw [List.getElem?_cons_zero] at h
        have hp : emitPass i { s with blendOn := false } = p :=
          Option.some.inj h
        subst hp
        exact ⟨rfl, fun _ => rfl, fun hk => absurd hk (by omega)⟩
      | succ k2 =>
        rw [List.getElem?_cons_succ] at h
        have hmem : p ∈ shadingPassesAux { s with blendOn := false } false
            (i + 1) rest := List.getElem?_mem h
        have hadd := shadingPassesAux_false_mem _ _ _ p hmem
        have hdepth := (shadingPassesAux_mem _ false (i + 1) rest p hmem).1
        exact ⟨hdepth, fun h0 => absurd h0 (by omega), fun _ => hadd⟩

lemma shadowPassesAux_mem (i : ℕ) (ls : List LightCfg) :
    ∀ q ∈ shadowPassesAux i ls,
      ∃ k l, ls[k]? = some l ∧ l.enabled = true ∧ l.hasShadow = true
        ∧ q.1 = i + k := by
  induction ls generalizing i with
  | nil =>
    intro q hq
    simp [shadowPassesAux] at hq
  | cons l rest ih =>
    intro q hq
    rw [shadowPassesAux] at hq
    rcases List.mem_append.mp hq with h1 | h2
    · by_cases hC : l.enabled && l.hasShadow
      · rw [if_pos hC] at h1
        obtain ⟨j, hj, hqe⟩ := List.mem_map.mp h1
        obtain ⟨hen, hsh⟩ := Bool.and_eq_true_iff.mp (by simpa using hC)
        refine ⟨0, l, by simp, hen, hsh, ?_⟩
        rw [← hqe]
        simp
      · rw [if_neg hC] at h1
        simp at h1
    · obtain ⟨k, l', hk, he, hs, hqi⟩ := ih (i + 1) q h2
      exact ⟨k + 1, l', by simpa using hk, he, hs, by omega⟩

lemma shadowPassesAux_eq_nil (i : ℕ) (ls : List LightCfg)
    (h : ∀ x ∈ ls, x.enabled = false) : shadowPassesAux i ls = [] := by
  induction ls generalizing i with
  | nil => rfl
  | cons l rest ih =>
    rw [shadowPassesAux, if_neg (by simp [h l (by simp)])]
    simpa using ih (i + 1) fun x hx => h x (by simp [hx])

/-- C7: in every frame a disabled light triggers no shadow sub-pass and no
shading pass; the first shading pass runs with blending disabled, every
later one with additive FUNC_ADD ONE/ONE blending under the less-or-equal
depth test installed at scene start; with zero enabled lights no pass at
all is recorded (only the clear happens). -/
theorem multi_light_compositor_contract (s0 : GLState)
    (lights : List LightCfg) (hdepth : s0.depth = DepthFunc.lequal) :
    (shadingPasses s0 lights).length
      = (lights.filter (fun l => l.enabled)).length
    ∧ (∀ k p, (shadingPasses s0 lights)[k]? = some p →
        p.depth = DepthFunc.lequal
        ∧ (k = 0 → p.blendOn = false)
        ∧ (0 < k → p.blendOn = true ∧ p.blendEq = BlendEq.funcAdd
            ∧ p.blendSrc = BlendFactor.one ∧ p.blendDst = BlendFactor.one))
    ∧ (∀ idx l, lights[idx]? = some l → l.enabled = false →
        (∀ p ∈ shadingPasses s0 lights, p.lightIdx ≠ idx)
        ∧ (∀ q ∈ shadowPasses lights, q.1 ≠ idx))
    ∧ (lights.filter (fun l => l.enabled) = [] →
        shadingPasses s0 lights = [] ∧ shadowPasses lights = []) := by
  refine ⟨shadingPassesAux_length s0 true 0 lights, fun k p h => ?_,
    fun idx l hidx hdis => ⟨fun p hp => ?_, fun q hq => ?_⟩,
    fun hnil => ⟨?_, ?_⟩⟩
  · have hg := shadingPassesAux_true_get s0 0 lights k p h
    exact ⟨hdepth ▸ hg.1, hg.2.1, hg.2.2⟩
  · obtain ⟨-, k, l', hk, hen, hpi⟩ :=
      shadingPassesAux_mem s0 true 0 lights p hp
    intro hEq
    have hkidx : k = idx := by omega
    subst hkidx
    rw [hk] at hidx
    have hll : l' = l := Option.some.inj hidx
    rw [hll, hdis] at hen
    exact absurd hen (by simp)
  · obtain ⟨k, l', hk, hen, -, hqi⟩ := shadowPassesAux_mem 0 lights q hq
    intro hEq
    have hkidx : k = idx := by omega
    subst hkidx
    rw [hk] at hidx
    have hll : l' = l := Option.some.inj hidx
    rw [hll, hdis] at hen
    exact absurd hen (by simp)
  · have hl := shadingPassesAux_length s0 true 0 lights
    rw [hnil] at hl
    exact List.length_eq_zero.mp hl
  · refine shadowPassesAux_eq_nil 0 lights fun x hx => ?_
    have := List.filter_eq_nil_iff.mp hnil x hx
    simpa using this

/-- C7 witness: with the scene's depth function and four lights of which the
third is disabled, exactly three shading passes run and none of them
belongs to the disabled light. -/
theorem multi_light_compositor_contract_witness :
    (shadingPasses
        ⟨false, BlendEq.funcAdd, BlendFactor.one, BlendFactor.zero,
          DepthFunc.lequal⟩
        [⟨true, true, 3⟩, ⟨true, true, 6⟩, ⟨false, true, 1⟩,
          ⟨true, true, 1⟩]).length = 3
    ∧ ∀ p ∈ shadingPasses
        ⟨false, BlendEq.funcAdd, BlendFactor.one, BlendFactor.zero,
          DepthFunc.lequal⟩
        [⟨true, true, 3⟩, ⟨true, true, 6⟩, ⟨false, true, 1⟩,
          ⟨true, true, 1⟩], p.lightIdx ≠ 2 := by
  have h := multi_light_compositor_contract
    ⟨false, BlendEq.funcAdd, BlendFactor.one, BlendFactor.zero,
      DepthFunc.lequal⟩
    [⟨true, true, 3⟩, ⟨true, true, 6⟩, ⟨false, true, 1⟩, ⟨true, true, 1⟩]
    rfl
  exact ⟨h.1.trans (by decide), (h.2.2.1 2 ⟨false, true, 1⟩ rfl rfl).1⟩

lemma applyUI_fields (u : UIUpdate) (l : SLight) :
    (applyUI u l).shadowMaps = l.shadowMaps
    ∧ (applyUI u l).ltype = l.ltype
    ∧ (applyUI u l).shadowMapResolution = l.shadowMapResolution
    ∧ (applyUI u l).cascades.length = l.cascades.length := by
  refine ⟨rfl, rfl, rfl, ?_⟩
  simp [applyUI]

lemma drawStep_fields (l : SLight) :
    (drawStep l).shadowMaps = l.shadowMaps
    ∧ (drawStep l).ltype = l.ltype
    ∧ (drawStep l).shadowMapResolution = l.shadowMapResolution
    ∧ (drawStep l).cascades.length = l.cascades.length := by
  unfold drawStep
  split
  · exact ⟨rfl, rfl, rfl, rfl⟩
  · exact ⟨rfl, rfl, rfl, rfl⟩

lemma runFrames_invariant (us : ℕ → SceneUI) (n : ℕ) :
    ((runFrames us n).directionalL.shadowMaps
        = startLights.directionalL.shadowMaps
      ∧ (runFrames us n).directionalL.shadowMapResolution
        = startLights.directionalL.shadowMapResolution
      ∧ (runFrames us n).directionalL.cascades.length
        = startLights.directionalL.cascades.length)
    ∧ ((runFrames us n).pointL.shadowMaps = startLights.pointL.shadowMaps
      ∧ (runFrames us n).pointL.shadowMapResolution
        = startLights.pointL.shadowMapResolution)
    ∧ ((runFrames us n).spotL.shadowMaps = startLights.spotL.shadowMaps
      ∧ (runFrames us n).spotL.shadowMapResolution
        = startLights.spotL.shadowMapResolution) := by
  induction n with
  | zero => exact ⟨⟨rfl, rfl, rfl⟩, ⟨rfl, rfl⟩, ⟨rfl, rfl⟩⟩
  | succ n ih =>
    obtain ⟨⟨hd1, hd2, hd3⟩, ⟨hp1, hp2⟩, ⟨hs1, hs2⟩⟩ := ih
    refine ⟨⟨?_, ?_, ?_⟩, ⟨?_, ?_⟩, ⟨?_, ?_⟩⟩
    · show (drawStep (applyUI (us n).directionalU
        (runFrames us n).directionalL)).shadowMaps = _
      rw [(drawStep_fields _).1, (applyUI_fields _ _).1, hd1]
    · show (drawStep (applyUI (us n).directionalU
        (runFrames us n).directionalL)).shadowMapResolution = _
      rw [(drawStep_fields _).2.2.1, (applyUI_fields _ _).2.2.1, hd2]
    · show (drawStep (applyUI (us n).directionalU
        (runFrames us n).directionalL)).cascades.length = _
      rw [(drawStep_fields _).2.2.2, (applyUI_fields _ _).2.2.2, hd3]
    · show (drawStep (applyUI (us n).pointU
        (runFrames us n).pointL)).shadowMaps = _
      rw [(drawStep_fields _).1, (applyUI_fields _ _).1, hp1]
    · show (drawStep (applyUI (us n).pointU
        (runFrames us n).pointL)).shadowMapResolution = _
      rw [(drawStep_fields _).2.2.1, (applyUI_fields _ _).2.2.1, hp2]
    · show (drawStep (applyUI (us n).spotU
        (runFrames us n).spotL)).shadowMaps = _
      rw [(drawStep_fields _).1, (applyUI_fields _ _).1, hs1]
    · show (drawStep (applyUI (us n).spotU
        (runFrames us n).spotL)).shadowMapResolution = _
      rw [(drawStep_fields _).2.2.1, (applyUI_fields _ _).2.2.1, hs2]

/-- C8: after scene start and across every later frame (with arbitrary UI
edits between frames), the spot light owns exactly 1 shadow map, the
directional light exactly one per cascade with the cascade count within the
fixed maximum of 4, and the point light exactly 6; every map is the square
depth-only texture of side shadowMapResolution that start() allocated. -/
theorem shadow_set_invariant (us : ℕ → SceneUI) (n : ℕ) :
    (runFrames us n).spotL.shadowMaps.length = 1
    ∧ (runFrames us n).directionalL.shadowMaps.length
        = (runFrames us n).directionalL.cascades.length
    ∧ (runFrames us n).directionalL.cascades.length ≤ MAX_CASCADES
    ∧ (runFrames us n).pointL.shadowMaps.length = 6
    ∧ (runFrames us n).spotL.shadowMaps = startLights.spotL.shadowMaps
    ∧ (runFrames us n).directionalL.shadowMaps
        = startLights.directionalL.shadowMaps
    ∧ (runFrames us n).pointL.shadowMaps = startLights.pointL.shadowMaps
    ∧ (∀ t ∈ (runFrames us n).spotL.shadowMaps,
        isSquareDepthMap (runFrames us n).spotL.shadowMapResolution t)
    ∧ (∀ t ∈ (runFrames us n).directionalL.shadowMaps,
        isSquareDepthMap (runFrames us n).directionalL.shadowMapResolution t)
    ∧ (∀ t ∈ (runFrames us n).pointL.shadowMaps,
        isSquareDepthMap (runFrames us n).pointL.shadowMapResolution t) := by
  obtain ⟨⟨hd1, hd2, hd3⟩, ⟨hp1, hp2⟩, ⟨hs1, hs2⟩⟩ := runFrames_invariant us n
  refine ⟨?_, ?_, ?_, ?_, hs1, hd1, hp1, ?_, ?_, ?_⟩
  · rw [hs1]
    decide
  · rw [hd1, hd3]
    decide
  · rw [hd3]
    decide
  · rw [hp1]
    decide
  · rw [hs1, hs2]
    decide
  · rw [hd1, hd2]
    decide
  · rw [hp1, hp2]
    decide

/-- C8 witness: two frames after start, the spot light still has exactly one
shadow map and the point light exactly six. -/
theorem shadow_set_invariant_witness :
    (runFrames
        (fun _ => ⟨⟨true, true, fun _ => 0⟩, ⟨true, true, fun _ => 0⟩,
          ⟨true, true, fun _ => 0⟩, ⟨true, true, fun _ => 0⟩⟩)
        2).spotL.shadowMaps.length = 1
    ∧ (runFrames
        (fun _ => ⟨⟨true, true, fun _ => 0⟩, ⟨true, true, fun _ => 0⟩,
          ⟨true, true, fun _ => 0⟩, ⟨true, true, fun _ => 0⟩⟩)
        2).pointL.shadowMaps.length = 6 :=
  ⟨(shadow_set_invariant _ 2).1, (shadow_set_invariant _ 2).2.2.2.1⟩

lemma objCmds_no_log (n : ℕ) : RenderCmd.logIncomplete ∉ objCmds n := by
  induction n with
  | zero => simp [objCmds]
  | succ n ih => simp [objCmds, ih]

lemma objCmds_filter (n : ℕ) :
    (objCmds n).filter (fun c => !(isLogCmd c)) = objCmds n := by
  induction n with
  | zero => rfl
  | succ n ih =>
    rw [objCmds, List.filter_append, ih]
    rfl

lemma objCmds_count (n : ℕ) : (objCmds n).count RenderCmd.drawMesh = n := by
  induction n with
  | zero => rfl
  | succ n ih =>
    rw [objCmds, List.count_append, ih]
    have h2 : ([RenderCmd.setModelMatrix,
        RenderCmd.drawMesh]).count RenderCmd.drawMesh = 1 := by decide
    omega

lemma shadowSubPass_true_no_log (r n : ℕ) :
    RenderCmd.logIncomplete ∉ shadowSubPassCmds true r n := by
  simp [shadowSubPassCmds, objCmds_no_log]

lemma shadowSubPass_filter (r n : ℕ) :
    (shadowSubPassCmds false r n).filter (fun c => !(isLogCmd c))
      = shadowSubPassCmds true r n := by
  show (([RenderCmd.attachDepth] ++ [RenderCmd.logIncomplete] ++
      [RenderCmd.setViewport r r, RenderCmd.clearDepth, RenderCmd.setShadowVP,
        RenderCmd.setPolygonOffset] ++ objCmds n).filter
      (fun c => !(isLogCmd c)))
    = [RenderCmd.attachDepth] ++ ([] : List RenderCmd) ++
      [RenderCmd.setViewport r r, RenderCmd.clearDepth, RenderCmd.setShadowVP,
        RenderCmd.setPolygonOffset] ++ objCmds n
  rw [List.filter_append, List.filter_append, List.filter_append,
    objCmds_filter]
  rfl

lemma shadowSubPass_true_filter (r n : ℕ) :
    (shadowSubPassCmds true r n).filter (fun c => !(isLogCmd c))
      = shadowSubPassCmds true r n := by
  show (([RenderCmd.attachDepth] ++ ([] : List RenderCmd) ++
      [RenderCmd.setViewport r r, RenderCmd.clearDepth, RenderCmd.setShadowVP,
        RenderCmd.setPolygonOffset] ++ objCmds n).filter
      (fun c => !(isLogCmd c)))
    = [RenderCmd.attachDepth] ++ ([] : List RenderCmd) ++
      [RenderCmd.setViewport r r, RenderCmd.clearDepth, RenderCmd.setShadowVP,
        RenderCmd.setPolygonOffset] ++ objCmds n
  rw [List.filter_append, List.filter_append, List.filter_append,
    objCmds_filter]
  rfl

lemma framePass_filter (resolution objCount : ℕ) (statuses : List Bool) :
    (framePassCmds statuses resolution objCount).filter
        (fun c => !(isLogCmd c))
      = framePassCmds (statuses.map fun _ => true) resolution objCount := by
  induction statuses with
  | nil => rfl
  | cons st rest ih =>
    show (shadowSubPassCmds st resolution objCount
        ++ framePassCmds rest resolution objCount).filter _
      = shadowSubPassCmds true resolution objCount
        ++ framePassCmds (rest.map fun _ => true) resolution objCount
    rw [List.filter_append, ih]
    cases st
    · rw [shadowSubPass_filter]
    · rw [shadowSubPass_true_filter]

/-- C9: when the framebuffer completeness check fails, the shadow sub-pass
emits the diagnostic log and otherwise issues exactly the commands of the
successful case - it still renders every object of the sub-pass, changes no
other state, and the remaining sub-passes of the frame are unaffected. -/
theorem framebuffer_incomplete_diagnostic (resolution objCount : ℕ)
    (statuses : List Bool) :
    RenderCmd.logIncomplete ∈ shadowSubPassCmds false resolution objCount
    ∧ RenderCmd.logIncomplete ∉ shadowSubPassCmds true resolution objCount
    ∧ (shadowSubPassCmds false resolution objCount).filter
        (fun c => !(isLogCmd c)) = shadowSubPassCmds true resolution objCount
    ∧ (shadowSubPassCmds false resolution objCount).count RenderCmd.drawMesh
        = objCount
    ∧ (framePassCmds statuses resolution objCount).filter
        (fun c => !(isLogCmd c))
      = framePassCmds (statuses.map fun _ => true) resolution objCount := by
  refine ⟨?_, shadowSubPass_true_no_log resolution objCount,
    shadowSubPass_filter resolution objCount, ?_,
    framePass_filter resolution objCount statuses⟩
  · simp [shadowSubPassCmds]
  · rw [shadowSubPassCmds]
    simp only [List.count_append]
    rw [objCmds_count]
    have h2 : ([RenderCmd.attachDepth]).count RenderCmd.drawMesh = 0 := by
      decide
    have h3 : ([RenderCmd.logIncomplete]).count RenderCmd.drawMesh = 0 := by
      decide
    have h4 : ([RenderCmd.setViewport resolution resolution,
        RenderCmd.clearDepth, RenderCmd.setShadowVP,
        RenderCmd.setPolygonOffset]).count RenderCmd.drawMesh = 0 := by
      simp [List.count_cons]
    rw [if_neg (by simp : ¬(false = true))]
    omega

/-- C9 witness: a failed check over two objects still draws both objects. -/
theorem framebuffer_incomplete_diagnostic_witness :
    (shadowSubPassCmds false 512 2).count RenderCmd.drawMesh = 2 :=
  (framebuffer_incomplete_diagnostic 512 2 []).2.2.2.1

end ShadowLab
